import Mathlib

/-!
Verification of the dedit terminal viewer (src/main.rs): a shallow
embedding of its cursor/viewport controller, frame composer, line buffer
and key dispatch, with theorems checking the specification's claims.
Machine integers (`usize`) are modelled as `Nat`; `saturating_sub` is
exactly `Nat` subtraction, and `saturating_add` never saturates on the
inputs the claims concern, so it is plain `Nat` addition.
-/

/-- The `Direction` enum of src/main.rs. `TopScreen`, `BottomScreen`,
`Home` and `End` are named `topScreen`, `bottomScreen`, `home`, `endKey`
here because `end` is a Lean keyword. -/
inductive Direction where
  | up
  | down
  | left
  | right
  | topScreen
  | bottomScreen
  | home
  | endKey
deriving DecidableEq

/-- The `CursorController` struct of src/main.rs: cursor coordinates,
viewport size and vertical scroll offset, all `usize` in the source. -/
structure CursorController where
  cursor_x : Nat
  cursor_y : Nat
  screen_cols : Nat
  screen_rows : Nat
  row_offset : Nat
deriving DecidableEq

/-- Embeds `CursorController::scroll` (src/main.rs lines 254-261): first clamp
`row_offset` down to `cursor_y`, then if the cursor fell below the
window snap the window bottom to the cursor. -/
def CursorController.scroll (c : CursorController) : CursorController :=
  let c1 := { c with row_offset := min c.row_offset c.cursor_y }
  if c1.cursor_y ≥ c1.row_offset + c1.screen_rows then
    { c1 with row_offset := c1.cursor_y - (c1.screen_rows - 1) }
  else
    c1

/-- Embeds `CursorController::move_cursor` (src/main.rs lines 263-278).
`saturating_sub 1` is `Nat` subtraction; `Down` increments only while
`cursor_y < number_of_rows`. -/
def CursorController.move_cursor (c : CursorController) (dir : Direction)
    (number_of_rows : Nat) : CursorController :=
  match dir with
  | .up => { c with cursor_y := c.cursor_y - 1 }
  | .down =>
      if c.cursor_y < number_of_rows then
        { c with cursor_y := c.cursor_y + 1 }
      else
        c
  | .left => { c with cursor_x := c.cursor_x - 1 }
  | .right => { c with cursor_x := c.cursor_x + 1 }
  | .topScreen => { c with cursor_y := 0 }
  | .bottomScreen => { c with cursor_y := c.screen_rows - 1 }
  | .home => { c with cursor_x := 0 }
  | .endKey => { c with cursor_x := c.screen_cols - 1 }

/-- Iterated `MoveDown`: `moveDowns c N k` applies
`move_cursor · Direction.down N` to `c` exactly `k` times. -/
def moveDowns (c : CursorController) (N : Nat) : Nat → CursorController
  | 0 => c
  | k + 1 => (moveDowns c N k).move_cursor .down N

/-- Only `row_offset` is written by `scroll`; the other four fields are
passed through. -/
theorem scroll_preserves (c : CursorController) :
    (c.scroll).cursor_x = c.cursor_x ∧ (c.scroll).cursor_y = c.cursor_y ∧
      (c.scroll).screen_cols = c.screen_cols ∧
      (c.scroll).screen_rows = c.screen_rows := by
  obtain ⟨x, y, sc, sr, ro⟩ := c
  simp only [CursorController.scroll]
  split <;> simp

/-- After `scroll`, the window contains the cursor (the shared invariant
lemma behind C1 and C9). -/
theorem scroll_inv (c : CursorController) (h : 1 ≤ c.screen_rows) :
    (c.scroll).row_offset ≤ c.cursor_y ∧
      c.cursor_y < (c.scroll).row_offset + c.screen_rows := by
  obtain ⟨x, y, sc, sr, ro⟩ := c
  simp only [CursorController.scroll]
  split <;> simp_all <;> omega

/-- A state already satisfying the window invariant is a fixed point of
`scroll`. -/
theorem scroll_fixed (d : CursorController) (h1 : d.row_offset ≤ d.cursor_y)
    (h2 : d.cursor_y < d.row_offset + d.screen_rows) : d.scroll = d := by
  obtain ⟨x, y, sc, sr, ro⟩ := d
  simp only [CursorController.scroll] at *
  rw [min_eq_left h1]
  split
  · omega
  · rfl

/-- C1: for every state with `screen_rows ≥ 1`, one call to `scroll()`
establishes `row_offset ≤ cursor_y < row_offset + screen_rows`. -/
theorem C1_scroll_invariant (c : CursorController)
    (h : 1 ≤ c.screen_rows) :
    (c.scroll).row_offset ≤ (c.scroll).cursor_y ∧
      (c.scroll).cursor_y < (c.scroll).row_offset + (c.scroll).screen_rows := by
  obtain ⟨hx, hy, hsc, hsr⟩ := scroll_preserves c
  obtain ⟨h1, h2⟩ := scroll_inv c h
  rw [hy, hsr]
  exact ⟨h1, h2⟩

/-- Witness for C1 at a concrete state (cursor far below the window). -/
theorem C1_scroll_invariant_witness :
    1 ≤ (CursorController.mk 2 100 80 24 0).screen_rows ∧
      ((CursorController.mk 2 100 80 24 0).scroll).row_offset ≤
          ((CursorController.mk 2 100 80 24 0).scroll).cursor_y ∧
        ((CursorController.mk 2 100 80 24 0).scroll).cursor_y <
          ((CursorController.mk 2 100 80 24 0).scroll).row_offset +
            ((CursorController.mk 2 100 80 24 0).scroll).screen_rows :=
  ⟨by decide, C1_scroll_invariant (CursorController.mk 2 100 80 24 0) (by decide)⟩

/-- Helper for C2: one `MoveDown` keeps `cursor_y ≤ N`. -/
theorem moveDown_le (c : CursorController) (N : Nat) (h : c.cursor_y ≤ N) :
    (c.move_cursor .down N).cursor_y ≤ N := by
  simp only [CursorController.move_cursor]
  by_cases hlt : c.cursor_y < N
  · rw [if_pos hlt]; exact hlt
  · rw [if_neg hlt]; exact h

/-- C2: from `cursor_y = 0`, any number of `MoveDown` applications with
`row_count = N` keeps `cursor_y ≤ N`; a single `MoveDown` increments
`cursor_y` exactly when `cursor_y < N`, so with `N = 0` it is a no-op
and `cursor_y` stays `0`. -/
theorem C2_moveDown_clamped (c : CursorController) (N k : Nat)
    (h0 : c.cursor_y = 0) :
    (moveDowns c N k).cursor_y ≤ N ∧
      (N = 0 → (moveDowns c N k).cursor_y = 0) ∧
      ((moveDowns c N k).move_cursor .down N).cursor_y =
        (if (moveDowns c N k).cursor_y < N then (moveDowns c N k).cursor_y + 1
         else (moveDowns c N k).cursor_y) := by
  have hle : (moveDowns c N k).cursor_y ≤ N := by
    induction k with
    | zero => simp only [moveDowns, h0]; exact Nat.zero_le N
    | succ k ih => exact moveDown_le _ _ ih
  refine ⟨hle, fun hN => by omega, ?_⟩
  simp only [CursorController.move_cursor]
  by_cases hlt : (moveDowns c N k).cursor_y < N
  · rw [if_pos hlt, if_pos hlt]
  · rw [if_neg hlt, if_neg hlt]

/-- Witness for C2 with `N = 0` and five `MoveDown` presses. -/
theorem C2_moveDown_clamped_witness :
    (CursorController.mk 0 0 80 24 0).cursor_y = 0 ∧
      (moveDowns (CursorController.mk 0 0 80 24 0) 0 5).cursor_y ≤ 0 ∧
        (0 = 0 → (moveDowns (CursorController.mk 0 0 80 24 0) 0 5).cursor_y = 0) ∧
        ((moveDowns (CursorController.mk 0 0 80 24 0) 0 5).move_cursor .down 0).cursor_y =
          (if (moveDowns (CursorController.mk 0 0 80 24 0) 0 5).cursor_y < 0 then
            (moveDowns (CursorController.mk 0 0 80 24 0) 0 5).cursor_y + 1
           else (moveDowns (CursorController.mk 0 0 80 24 0) 0 5).cursor_y) :=
  ⟨by decide, C2_moveDown_clamped (CursorController.mk 0 0 80 24 0) 0 5 (by decide)⟩

/-- C5: with `screen_rows ≥ 1`, `JumpBottom` sets
`cursor_y = screen_rows - 1` whatever the row count `n` is, `JumpTop`
sets `cursor_y = 0`, `JumpHome` sets `cursor_x = 0`, and `JumpEnd` sets
`cursor_x = screen_cols - 1`. -/
theorem C5_jumps (c : CursorController) (n : Nat)
    (h : 1 ≤ c.screen_rows) :
    (c.move_cursor .bottomScreen n).cursor_y = c.screen_rows - 1 ∧
      (c.move_cursor .topScreen n).cursor_y = 0 ∧
      (c.move_cursor .home n).cursor_x = 0 ∧
      (c.move_cursor .endKey n).cursor_x = c.screen_cols - 1 := by
  refine ⟨rfl, rfl, rfl, rfl⟩

/-- Witness for C5 at a concrete state with a tiny 2-row buffer. -/
theorem C5_jumps_witness :
    1 ≤ (CursorController.mk 3 7 80 24 5).screen_rows ∧
      ((CursorController.mk 3 7 80 24 5).move_cursor .bottomScreen 2).cursor_y =
          (CursorController.mk 3 7 80 24 5).screen_rows - 1 ∧
        ((CursorController.mk 3 7 80 24 5).move_cursor .topScreen 2).cursor_y = 0 ∧
        ((CursorController.mk 3 7 80 24 5).move_cursor .home 2).cursor_x = 0 ∧
        ((CursorController.mk 3 7 80 24 5).move_cursor .endKey 2).cursor_x =
          (CursorController.mk 3 7 80 24 5).screen_cols - 1 :=
  ⟨by decide, C5_jumps (CursorController.mk 3 7 80 24 5) 2 (by decide)⟩

/-- C8: `MoveUp` sets `cursor_y` to `max 0 (cursor_y - 1)` and
`MoveLeft` sets `cursor_x` to `max 0 (cursor_x - 1)` (stated over `ℤ`
so the saturation at `0` is visible); neither wraps at `0`. -/
theorem C8_up_left_saturate (c : CursorController) (n : Nat) :
    ((c.move_cursor .up n).cursor_y : ℤ) = max 0 ((c.cursor_y : ℤ) - 1) ∧
      ((c.move_cursor .left n).cursor_x : ℤ) = max 0 ((c.cursor_x : ℤ) - 1) := by
  unfold CursorController.move_cursor
  constructor <;> simp <;> omega

/-- C9: with `screen_rows ≥ 1`, `scroll()` is idempotent: a second call
right after the first changes nothing. -/
theorem C9_scroll_idempotent (c : CursorController)
    (h : 1 ≤ c.screen_rows) :
    (c.scroll).scroll = c.scroll := by
  obtain ⟨hx, hy, hsc, hsr⟩ := scroll_preserves c
  obtain ⟨h1, h2⟩ := scroll_inv c h
  exact scroll_fixed c.scroll (by rw [hy]; exact h1) (by rw [hy, hsr]; exact h2)

/-- Witness for C9 at a concrete state that actually scrolls. -/
theorem C9_scroll_idempotent_witness :
    1 ≤ (CursorController.mk 2 100 80 24 0).screen_rows ∧
      ((CursorController.mk 2 100 80 24 0).scroll).scroll =
        (CursorController.mk 2 100 80 24 0).scroll :=
  ⟨by decide, C9_scroll_idempotent (CursorController.mk 2 100 80 24 0) (by decide)⟩

/-- C10: `move_cursor` touches only `cursor_x` and `cursor_y`:
`row_offset`, `screen_cols` and `screen_rows` are unchanged for every
direction and row count. -/
theorem C10_move_cursor_frame (c : CursorController) (dir : Direction) (n : Nat) :
    (c.move_cursor dir n).row_offset = c.row_offset ∧
      (c.move_cursor dir n).screen_cols = c.screen_cols ∧
      (c.move_cursor dir n).screen_rows = c.screen_rows := by
  cases dir
  case down =>
    simp only [CursorController.move_cursor]
    by_cases hlt : c.cursor_y < n
    · rw [if_pos hlt]; exact ⟨rfl, rfl, rfl⟩
    · rw [if_neg hlt]; exact ⟨rfl, rfl, rfl⟩
  all_goals exact ⟨rfl, rfl, rfl⟩

/-- Crossterm key modifiers as used by src/main.rs: a bitflag set with
shift, control and alt bits. -/
structure KeyModifiers where
  shift : Bool
  control : Bool
  alt : Bool
deriving DecidableEq

/-- The empty modifier set, `KeyModifiers::NONE`. -/
def KeyModifiers.NONE : KeyModifiers := ⟨false, false, false⟩

/-- Exactly the control bit, `KeyModifiers::CONTROL`. -/
def KeyModifiers.CONTROL : KeyModifiers := ⟨false, true, false⟩

/-- The crossterm `KeyCode` variants. The variants src/main.rs never
names (`Backspace`, `Enter`, function keys, …) are kept, since
`process_keypress` must route them to a no-op. -/
inductive KeyCode where
  | char (c : Char)
  | up
  | down
  | left
  | right
  | pageUp
  | pageDown
  | homeKey
  | endKey
  | backspace
  | enter
  | tab
  | delete
  | insert
  | esc
  | f (n : Nat)
deriving DecidableEq

/-- A crossterm `KeyEvent`: a key code plus its modifier set. -/
structure KeyEvent where
  code : KeyCode
  modifiers : KeyModifiers
deriving DecidableEq

/-- Embeds `Editor::ch_to_dir` (src/main.rs lines 91-99): `none` models the
`unimplemented!()` panic arm. -/
def Editor.ch_to_dir (ch : Char) : Option Direction :=
  if ch = 'h' then some .left
  else if ch = 'j' then some .down
  else if ch = 'k' then some .up
  else if ch = 'l' then some .right
  else none

/-- Embeds `Editor::arrow_to_dir` (src/main.rs lines 100-108): `none` models
the `unimplemented!()` panic arm. -/
def Editor.arrow_to_dir (key : KeyCode) : Option Direction :=
  if key = .up then some .up
  else if key = .down then some .down
  else if key = .left then some .left
  else if key = .right then some .right
  else none

/-- What one `process_keypress` step does to the session, abstracting
the cursor mutation: `quit` is `Ok(false)`, `move d` is
`Ok(true)` after `move_cursor(d)`, `noop` is `Ok(true)` with no state
change, `diverge` is a panic (an `unimplemented!()` arm reached). -/
inductive Outcome where
  | quit
  | move (d : Direction)
  | noop
  | diverge
deriving DecidableEq

/-- Lifts the possibly-panicking direction computation into the step
outcome: if the helper would panic, the whole keypress diverges. -/
def moveOutcome : Option Direction → Outcome
  | some d => .move d
  | none => .diverge

/-- Embeds `Editor::process_keypress` (src/main.rs lines 111-145), arm for
arm. The `val @ ('h' | 'j' | 'k' | 'l')` guard appears as the
disjunction; the final `_ => {}` arm is `noop`. -/
def process_keypress (ev : KeyEvent) : Outcome :=
  match ev.code with
  | .char v =>
      if v = 'q' ∧ ev.modifiers = KeyModifiers.CONTROL then .quit
      else if (v = 'h' ∨ v = 'j' ∨ v = 'k' ∨ v = 'l') ∧
          ev.modifiers = KeyModifiers.NONE then
        moveOutcome (Editor.ch_to_dir v)
      else .noop
  | .up =>
      if ev.modifiers = KeyModifiers.NONE then
        moveOutcome (Editor.arrow_to_dir .up)
      else .noop
  | .down =>
      if ev.modifiers = KeyModifiers.NONE then
        moveOutcome (Editor.arrow_to_dir .down)
      else .noop
  | .left =>
      if ev.modifiers = KeyModifiers.NONE then
        moveOutcome (Editor.arrow_to_dir .left)
      else .noop
  | .right =>
      if ev.modifiers = KeyModifiers.NONE then
        moveOutcome (Editor.arrow_to_dir .right)
      else .noop
  | .pageUp =>
      if ev.modifiers = KeyModifiers.NONE then .move .topScreen else .noop
  | .pageDown =>
      if ev.modifiers = KeyModifiers.NONE then .move .bottomScreen else .noop
  | .homeKey =>
      if ev.modifiers = KeyModifiers.NONE then .move .home else .noop
  | .endKey =>
      if ev.modifiers = KeyModifiers.NONE then .move .endKey else .noop
  | _ => .noop

/-- The specification's input-mapping table (spec §4.1), written from
the spec's words: Quit for Ctrl+q; MoveLeft/Down/Up/Right for h/j/k/l
and the arrows with no modifier; JumpTop/JumpBottom/JumpHome/JumpEnd for
PageUp/PageDown/Home/End with no modifier; Noop for everything else. -/
def decodeSpec (ev : KeyEvent) : Outcome :=
  if ev.code = .char 'q' ∧ ev.modifiers = KeyModifiers.CONTROL then .quit
  else if ev.code = .char 'h' ∧ ev.modifiers = KeyModifiers.NONE then .move .left
  else if ev.code = .char 'j' ∧ ev.modifiers = KeyModifiers.NONE then .move .down
  else if ev.code = .char 'k' ∧ ev.modifiers = KeyModifiers.NONE then .move .up
  else if ev.code = .char 'l' ∧ ev.modifiers = KeyModifiers.NONE then .move .right
  else if ev.code = .left ∧ ev.modifiers = KeyModifiers.NONE then .move .left
  else if ev.code = .down ∧ ev.modifiers = KeyModifiers.NONE then .move .down
  else if ev.code = .up ∧ ev.modifiers = KeyModifiers.NONE then .move .up
  else if ev.code = .right ∧ ev.modifiers = KeyModifiers.NONE then .move .right
  else if ev.code = .pageUp ∧ ev.modifiers = KeyModifiers.NONE then .move .topScreen
  else if ev.code = .pageDown ∧ ev.modifiers = KeyModifiers.NONE then .move .bottomScreen
  else if ev.code = .homeKey ∧ ev.modifiers = KeyModifiers.NONE then .move .home
  else if ev.code = .endKey ∧ ev.modifiers = KeyModifiers.NONE then .move .endKey
  else .noop

/-- Helper for C3: the code's dispatch agrees with the spec table. -/
theorem process_keypress_eq_decodeSpec (ev : KeyEvent) :
    process_keypress ev = decodeSpec ev := by
  obtain ⟨code, s, ctl, a⟩ := ev
  cases code <;> cases s <;> cases ctl <;> cases a <;>
    simp only [process_keypress, decodeSpec, moveOutcome, Editor.ch_to_dir,
      Editor.arrow_to_dir, KeyModifiers.NONE, KeyModifiers.CONTROL,
      KeyModifiers.mk.injEq, KeyCode.char.injEq, and_true, and_false,
      true_and, false_and, if_true, if_false, ite_false, ite_true,
      reduceCtorEq, and_self, Bool.true_eq_false, Bool.false_eq_true] <;>
    (try rfl) <;>
    split_ifs <;> simp_all [Editor.ch_to_dir, moveOutcome]

/-- Helper for C3: the dispatch never reaches a panic arm. -/
theorem process_keypress_ne_diverge (ev : KeyEvent) :
    process_keypress ev ≠ Outcome.diverge := by
  obtain ⟨code, s, ctl, a⟩ := ev
  cases code <;> cases s <;> cases ctl <;> cases a <;>
    simp only [process_keypress, moveOutcome, Editor.ch_to_dir,
      Editor.arrow_to_dir, KeyModifiers.NONE, KeyModifiers.CONTROL,
      KeyModifiers.mk.injEq, and_true, and_false, true_and, false_and,
      if_true, if_false, ite_false, ite_true, reduceCtorEq, and_self,
      Bool.true_eq_false, Bool.false_eq_true] <;>
    (first
      | decide
      | (split_ifs <;> simp_all [Editor.ch_to_dir, moveOutcome]))

/-- C3: `process_keypress` equals the spec's §4.1 mapping table on every
key event (Ctrl+q gives the quit signal, every listed key gives its
listed command, everything else is a no-op), and it never reaches the
`unimplemented!()` arms of `ch_to_dir` / `arrow_to_dir`. -/
theorem C3_keypress_total (ev : KeyEvent) :
    process_keypress ev = decodeSpec ev ∧
      process_keypress ev ≠ Outcome.diverge := by
  exact ⟨process_keypress_eq_decodeSpec ev, process_keypress_ne_diverge ev⟩

/-- Rust `str::split_inclusive('\n')` over `List Char`: each segment
keeps its trailing newline; the empty text yields no segments. -/
def splitInclusiveNl : List Char → List (List Char)
  | [] => []
  | c :: rest =>
    if c = '\n' then
      [c] :: splitInclusiveNl rest
    else
      match splitInclusiveNl rest with
      | [] => [[c]]
      | seg :: segs => (c :: seg) :: segs

/-- The per-segment trim of Rust `str::lines`: strip one trailing
newline and, when one was stripped, also one trailing carriage
return. -/
def trimLineEnding (seg : List Char) : List Char :=
  if seg.getLast? = some '\n' then
    if seg.dropLast.getLast? = some '\r' then seg.dropLast.dropLast
    else seg.dropLast
  else seg

/-- Rust `str::lines` over `List Char`, as used by
`EditorRows::from_file`. -/
def rustLines (s : List Char) : List (List Char) :=
  (splitInclusiveNl s).map trimLineEnding

/-- The `EditorRows` struct of src/main.rs: the loaded line buffer,
each row a `Box<str>` modelled as a `List Char`. -/
structure EditorRows where
  row_contents : List (List Char)
deriving DecidableEq

/-- Embeds `EditorRows::new` and `EditorRows::from_file` (src/main.rs lines
291-305): no CLI argument gives an empty buffer; with an argument the
file text (reading it is the excluded I/O part) is split with
`contents.lines()`. -/
def EditorRows.new : Option (List Char) → EditorRows
  | none => ⟨[]⟩
  | some contents => ⟨rustLines contents⟩

/-- Embeds `EditorRows::number_of_rows`. -/
def EditorRows.number_of_rows (er : EditorRows) : Nat :=
  er.row_contents.length

/-- Embeds `EditorRows::get_row`; all call sites index below
`number_of_rows`, so the default never surfaces. -/
def EditorRows.get_row (er : EditorRows) (n : Nat) : List Char :=
  er.row_contents.getD n []

/-- A text whose lines are exactly `lines`, each terminated with a
newline. -/
def serializeLines (lines : List (List Char)) : List Char :=
  (lines.map (fun l => l ++ ['\n'])).join

/-- Splitting after appending one newline-terminated line peels off
exactly that line. -/
theorem splitInclusiveNl_append (l rest : List Char) (h : '\n' ∉ l) :
    splitInclusiveNl (l ++ '\n' :: rest) =
      (l ++ ['\n']) :: splitInclusiveNl rest := by
  induction l with
  | nil => simp [splitInclusiveNl]
  | cons c l ih =>
    have hc : ¬(c = '\n') := fun hcc => h (List.mem_cons.mpr (Or.inl hcc.symm))
    have hmem : '\n' ∉ l := fun hm => h (List.mem_cons_of_mem c hm)
    simp only [List.cons_append, splitInclusiveNl, if_neg hc, List.append_eq,
      ih hmem]

/-- Trimming a newline-terminated line gives the line back, provided
the line itself does not end in a carriage return. -/
theorem trimLineEnding_terminated (l : List Char)
    (h : l.getLast? ≠ some ('\r')) :
    trimLineEnding (l ++ ['\n']) = l := by
  unfold trimLineEnding
  rw [List.getLast?_concat, List.dropLast_concat]
  rw [if_pos rfl, if_neg h]

/-- Loading a newline-terminated serialization recovers the lines. -/
theorem rustLines_serialize (lines : List (List Char))
    (h : ∀ l ∈ lines, '\n' ∉ l ∧ l.getLast? ≠ some ('\r')) :
    rustLines (serializeLines lines) = lines := by
  induction lines with
  | nil => rfl
  | cons l ls ih =>
    obtain ⟨h1, h2⟩ := h l (List.mem_cons_self l ls)
    have hrest := ih fun x hx => h x (List.mem_cons_of_mem l hx)
    simp only [serializeLines, List.map_cons, List.join_cons, List.append_assoc,
      List.singleton_append] at *
    unfold rustLines at *
    rw [splitInclusiveNl_append _ _ h1, List.map_cons,
      trimLineEnding_terminated l h2]
    rw [hrest]

/-- C6: `EditorRows::new` with no source yields zero rows; loading a
text made of newline-terminated lines splits it back into exactly those
lines, markers discarded, empty lines and order preserved; in
particular the text with lines `abc`, the empty line, `de` gives
`number_of_rows = 3` with row 1 the empty line. -/
theorem C6_load_lines (lines : List (List Char))
    (h : ∀ l ∈ lines, '\n' ∉ l ∧ l.getLast? ≠ some ('\r')) :
    (EditorRows.new none).number_of_rows = 0 ∧
      (EditorRows.new (some (serializeLines lines))).row_contents = lines ∧
      (EditorRows.new (some ("abc\n\nde".toList))).number_of_rows = 3 ∧
      (EditorRows.new (some ("abc\n\nde".toList))).get_row 1 = [] := by
  refine ⟨rfl, ?_, by decide, by decide⟩
  show (rustLines (serializeLines lines)) = lines
  exact rustLines_serialize lines h

/-- Witness for C6 on the spec's three-line example, newline
terminated. -/
theorem C6_load_lines_witness :
    (∀ l ∈ [String.toList "abc", [], String.toList "de"],
        '\n' ∉ l ∧ l.getLast? ≠ some ('\r')) ∧
      (EditorRows.new none).number_of_rows = 0 ∧
        (EditorRows.new (some (serializeLines
            [String.toList "abc", [], String.toList "de"]))).row_contents =
          [String.toList "abc", [], String.toList "de"] ∧
        (EditorRows.new (some ("abc\n\nde".toList))).number_of_rows = 3 ∧
        (EditorRows.new (some ("abc\n\nde".toList))).get_row 1 = [] :=
  ⟨by decide, C6_load_lines [String.toList "abc", [], String.toList "de"] (by decide)⟩

/-- The greeting string of `Output::draw_rows`:
`format!("Dana's Baby Editor {}", "0.0.1")`. The apostrophe is written
via `Char.ofNat 39`. -/
def greetingText : List Char :=
  "Dana".toList ++ [Char.ofNat 39] ++ "s Baby Editor 0.0.1".toList

/-- The text pushed for physical row `j` by `Output::draw_rows`
(src/main.rs lines 177-208): the terminal control sequences
(clear-until-newline, the `\r\n` between rows) are elided, keeping the
visible row content. `row_offset` comes from the cursor controller,
`screen_rows`/`screen_cols` from `win_size`. -/
def drawRow (er : EditorRows) (row_offset screen_rows screen_cols j : Nat) :
    List Char :=
  let buffer_row := j + row_offset
  if buffer_row ≥ er.number_of_rows then
    if er.number_of_rows = 0 ∧ j = screen_rows / 3 then
      let greeting :=
        if greetingText.length > screen_cols then greetingText.take screen_cols
        else greetingText
      let padding := (screen_cols - greeting.length) / 2
      (if padding ≠ 0 then ['~'] else []) ++
        List.replicate (if padding ≠ 0 then padding - 1 else padding) ' ' ++
          greeting
    else ['~']
  else
    (er.get_row buffer_row).take
      (min (er.get_row buffer_row).length screen_cols)

/-- The whole frame of `Output::draw_rows`: one content row per
physical row `j < screen_rows`. -/
def draw_rows (er : EditorRows) (row_offset screen_rows screen_cols : Nat) :
    List (List Char) :=
  (List.range screen_rows).map (drawRow er row_offset screen_rows screen_cols)

/-- Indexing the composed frame at a physical row below `screen_rows`
gives that row's `drawRow` text. -/
theorem draw_rows_getD (er : EditorRows) (ro sr sc j : Nat) (hj : j < sr) :
    (draw_rows er ro sr sc).getD j [] = drawRow er ro sr sc j := by
  unfold draw_rows
  rw [List.getD_eq_getElem _ _ (by simpa using hj)]
  simp [List.getElem_map, List.getElem_range]

/-- C4: an in-range buffer row (visible in the window and below the row
count) is rendered as its content truncated to at most `screen_cols`
characters, so the rendered row never exceeds `screen_cols`. -/
theorem C4_truncation (er : EditorRows) (ro sr sc r : Nat)
    (h1 : ro ≤ r) (h2 : r < er.number_of_rows) (h3 : r < ro + sr) :
    (draw_rows er ro sr sc).getD (r - ro) [] = (er.get_row r).take sc ∧
      ((draw_rows er ro sr sc).getD (r - ro) []).length ≤ sc := by
  have hj : r - ro < sr := by omega
  rw [draw_rows_getD er ro sr sc (r - ro) hj]
  have hr : r - ro + ro = r := by omega
  unfold drawRow
  rw [hr, if_neg (by omega)]
  constructor
  · rcases Nat.le_total (er.get_row r).length sc with hle | hle
    · rw [min_eq_left hle, List.take_length, List.take_of_length_le hle]
    · rw [min_eq_right hle]
  · rw [List.length_take]
    rcases Nat.le_total (er.get_row r).length sc with hle | hle <;> omega

/-- Witness for C4: the spec's example, a 15-character row with
`screen_cols = 10` renders as exactly its first 10 characters. -/
theorem C4_truncation_witness :
    0 ≤ 0 ∧ 0 < (EditorRows.mk ["abcdefghijklmno".toList]).number_of_rows ∧
      0 < 0 + 5 ∧
      (draw_rows (EditorRows.mk ["abcdefghijklmno".toList]) 0 5 10).getD (0 - 0) [] =
          ((EditorRows.mk ["abcdefghijklmno".toList]).get_row 0).take 10 ∧
        ((draw_rows (EditorRows.mk ["abcdefghijklmno".toList]) 0 5 10).getD (0 - 0) []).length ≤ 10 ∧
        ((EditorRows.mk ["abcdefghijklmno".toList]).get_row 0).take 10 =
          "abcdefghij".toList :=
  ⟨by decide, by decide, by decide,
    (C4_truncation (EditorRows.mk ["abcdefghijklmno".toList]) 0 5 10 0
        (by decide) (by decide) (by decide)).1,
    (C4_truncation (EditorRows.mk ["abcdefghijklmno".toList]) 0 5 10 0
        (by decide) (by decide) (by decide)).2,
    by decide⟩

/-- The placeholder line as the spec §4.4 words it: greeting truncated
to `screen_cols`, then centered by a left padding of
`(screen_cols - len) / 2` cells, the first padding cell being the `~`
marker when any padding remains. -/
def greetingSpec (sc : Nat) : List Char :=
  let g := greetingText.take sc
  let padding := (sc - g.length) / 2
  if padding ≠ 0 then '~' :: (List.replicate (padding - 1) ' ' ++ g) else g

/-- C7: with an empty buffer, physical row `screen_rows / 3` shows the
centered greeting and every other physical row shows exactly `~`. -/
theorem C7_placeholder (er : EditorRows) (ro sr sc j : Nat)
    (hz : er.number_of_rows = 0) (hj : j < sr) :
    (draw_rows er ro sr sc).getD j [] =
      (if j = sr / 3 then greetingSpec sc else ['~']) := by
  rw [draw_rows_getD er ro sr sc j hj]
  unfold drawRow
  rw [if_pos (by omega)]
  by_cases hj3 : j = sr / 3
  · rw [if_pos ⟨hz, hj3⟩, if_pos hj3]
    unfold greetingSpec
    have hg : (if greetingText.length > sc then greetingText.take sc
        else greetingText) = greetingText.take sc := by
      by_cases hlen : greetingText.length > sc
      · rw [if_pos hlen]
      · rw [if_neg hlen, List.take_of_length_le (by omega)]
    rw [hg]
    by_cases hp : (sc - (greetingText.take sc).length) / 2 ≠ 0
    · simp only [if_pos hp]
      rfl
    · simp only [if_neg hp]
      simp only [ne_eq, not_not, List.length_take] at hp
      simp [List.length_take, hp]
  · rw [if_neg (by tauto), if_neg hj3]

/-- Witness for C7: `screen_rows = 9`, `screen_cols = 40`, empty
buffer: row 3 is the centered greeting, row 5 is the bare marker. -/
theorem C7_placeholder_witness :
    (EditorRows.mk []).number_of_rows = 0 ∧ (3 : Nat) < 9 ∧ (5 : Nat) < 9 ∧
      (draw_rows (EditorRows.mk []) 0 9 40).getD 3 [] =
          (if 3 = 9 / 3 then greetingSpec 40 else ['~']) ∧
        (draw_rows (EditorRows.mk []) 0 9 40).getD 5 [] =
          (if 5 = 9 / 3 then greetingSpec 40 else ['~']) :=
  ⟨by decide, by decide, by decide,
    C7_placeholder (EditorRows.mk []) 0 9 40 3 (by decide) (by decide),
    C7_placeholder (EditorRows.mk []) 0 9 40 5 (by decide) (by decide)⟩
